import Mathlib

/-!
Multibeam activity detector: decode logic and bus sequencing

A shallow embedding of the two programs of the repository:

* `previous/program.c` : `initializeState`, `processData`, `outputThread`,
  the classification made by `displayThread`, and `outputThread` and
  `inputThread` running side by side under a schedule;
* `new/mad.cpp` : the sequential polling loop, with the error exit of
  `DAQmxErrChk`.

Bytes (`uInt8`) are natural numbers, C `int`s are integers.  A `uInt8` is at
most 255, so the sum formed in `processData` is at most 3570 and never wraps
in a C `int`.
-/

namespace MAD

/-! ## previous/program.c -/

/-- The constant `NUM_TUBES`. -/
def NUM_TUBES : Nat := 16

/-- The struct `TubeReading` without its critical section. -/
structure TubeReading where
  value : Int
  isEating : Bool
  deriving DecidableEq, Repr

/-- The array `uInt8 data[]` handed to `processData`: one byte per input line,
`d4` being the DV line. -/
structure Sample where
  d0 : Nat
  d1 : Nat
  d2 : Nat
  d3 : Nat
  d4 : Nat
  deriving DecidableEq, Repr

/-- The global array `tubeReadings[NUM_TUBES]`. -/
abbrev Table := Fin NUM_TUBES → TubeReading

/-- The loop of `initializeState` over `tubeReadings`. -/
def initializeState : Table := fun _ => { value := 0, isEating := false }

/-- The body of `processData` on the entry of one tube. -/
def processEntry (data : Sample) (r : TubeReading) : TubeReading :=
  if data.d4 = 0 then
    { value := (data.d0 : Int) + (data.d1 : Int) * 1 + (data.d2 : Int) * 4 + (data.d3 : Int) * 8,
      isEating := false }
  else
    if data.d0 = 0 ∧ data.d1 = 0 ∧ data.d2 = 0 ∧ data.d3 = 0 ∧ r.value = 1 then
      { r with isEating := true }
    else
      r

/-- The function `processData(data, tubeNumber)` on the whole table. -/
def processData (data : Sample) (tubeNumber : Fin NUM_TUBES) (t : Table) : Table :=
  fun j => if j = tubeNumber then processEntry data (t tubeNumber) else t j

/-- What `displayThread` prints for one tube. -/
inductive Display where
  | idle
  | position (p : Int)
  | eating
  deriving DecidableEq, Repr

/-- The three-way branch of `displayThread` on `(isEating, value)`. -/
def displayReading (r : TubeReading) : Display :=
  if r.isEating then Display.eating
  else if r.value > 0 then Display.position r.value
  else Display.idle

/-- A finite sequence of `processData` calls, applied left to right. -/
def runCalls (calls : List (Sample × Fin NUM_TUBES)) (t : Table) : Table :=
  calls.foldl (fun acc c => processData c.1 c.2 acc) t

/-- The sample whose four position lines carry the given bits and whose DV line
carries `dv`. -/
def sampleOfBits (b0 b1 b2 b3 dv : Bool) : Sample :=
  { d0 := b0.toNat, d1 := b1.toNat, d2 := b2.toNat, d3 := b3.toNat, d4 := dv.toNat }

/-- The first entry of `tubeReadings`. -/
def tube0 : Fin NUM_TUBES := ⟨0, by decide⟩

/-- One call of `DAQmxWriteDigitalLines` by `outputThread`: the two bytes of
`outputData` (element 0 the reset line, element 1 the clock line), and the value
of the loop variable `i` when the call sits inside the `for` loop. -/
structure LineWrite where
  tube : Option Nat
  reset : Nat
  clock : Nat
  deriving DecidableEq, Repr

/-- What `outputThread` reads and writes: its local array `outputData`, the
fields of `state` it assigns, and the calls of `DAQmxWriteDigitalLines` made so
far, oldest first. -/
structure OutState where
  outputData0 : Nat
  outputData1 : Nat
  resetActive : Bool
  clockHigh : Bool
  currentTube : Int
  writes : List LineWrite
  deriving DecidableEq, Repr

/-- A call `DAQmxWriteDigitalLines(..., outputData, ...)`; `outputThread` discards
the status it returns. -/
def writeOutputData (tube : Option Nat) (st : OutState) : OutState :=
  { st with writes := st.writes ++ [{ tube := tube, reset := st.outputData0, clock := st.outputData1 }] }

/-- The body of the `for` loop of `outputThread` for loop variable `i`. -/
def clockPulse (st : OutState) (i : Nat) : OutState :=
  let st := { st with outputData1 := 1, clockHigh := true }
  let st := writeOutputData (some i) st
  let st := { st with outputData1 := 0, clockHigh := false }
  writeOutputData (some i) st

/-- The body of the `while (state.running)` loop of `outputThread`. -/
def outputCycle (st : OutState) : OutState :=
  let st := { st with outputData0 := 1, outputData1 := 0, resetActive := true, currentTube := 0 }
  let st := writeOutputData none st
  let st := { st with outputData0 := 0 }
  let st := writeOutputData none st
  let st := { st with resetActive := false }
  (List.range NUM_TUBES).foldl clockPulse st

/-- The function `outputThread`.  `running k` is the value of the volatile flag
`state.running` at the `k`-th evaluation of the loop condition, counted from
`k`; the flag is read nowhere else.  The result is `none` when the fuel is used
up before the condition is found false. -/
def outputThread (running : Nat → Bool) : Nat → Nat → OutState → Option OutState
  | 0, _, _ => none
  | fuel + 1, k, st =>
    if running k then outputThread running fuel (k + 1) (outputCycle st) else some st

/-- The state in which `outputThread` starts: the flags as `initializeState`
leaves them, no write made yet, and the local array `outputData` holding
whatever bytes it happens to hold. -/
def outputStart (o0 o1 : Nat) : OutState :=
  { outputData0 := o0, outputData1 := o1, resetActive := false, clockHigh := false,
    currentTube := 0, writes := [] }

/-- The writes of one pass of the `while` loop of `outputThread`, as the code
comments name them: reset high, reset low, then per tube clock high, clock low. -/
def cycleWrites : List LineWrite :=
  [{ tube := none, reset := 1, clock := 0 }, { tube := none, reset := 0, clock := 0 }] ++
    (List.range NUM_TUBES).flatMap
      (fun i => [{ tube := some i, reset := 0, clock := 1 }, { tube := some i, reset := 0, clock := 0 }])

/-! ## new/mad.cpp -/

/-- The constant `Tb`, in microseconds. -/
def Tb : Int := 200

/-- The constant `resetPulseDuration`. -/
def resetPulseDuration : Int := 3 * Tb

/-- The constant `clockHighDuration`. -/
def clockHighDuration : Int := 500

/-- The constant `clockLowDuration`. -/
def clockLowDuration : Int := 500

/-- The constant `readDelay`. -/
def readDelay : Int := Tb

/-- The constant `remainingHighDelay`. -/
def remainingHighDelay : Int := clockHighDuration - readDelay

/-- Modelled from the spec: the declaration of `numTubes` is not part of
`mad.cpp` as given; the spec fixes the tube count at sixteen, and the comment on
the loop reads "For each tube (16 tubes)". -/
def numTubes : Nat := 16

/-- What the polling loop does to the outside world, in program order. -/
inductive Event where
  | write (mask : Nat)
  | sleep (us : Int)
  | read (tube : Nat)
  deriving DecidableEq, Repr

/-- The DAQmx driver as the loop sees it.  `status k` is the status returned by
the driver call that is event number `k` of the run, `input k` the byte that
call leaves in `diData` when it is a read. -/
structure Device where
  status : Nat → Int
  input : Nat → Nat

/-- The state of the polling loop: the events so far, oldest first, and the
array `lastValue`. -/
structure LoopState where
  trace : List Event
  lastValue : Nat → Int

/-- How the loop is left through `goto Error`: the status in `error`, and the
state reached when the failing call was made.  A call that fails leaves no
event. -/
structure Abort where
  status : Int
  state : LoopState

/-- `DAQmxErrChk(DAQmxWriteDigitalLines(doTask, ..., &doData, ...))`, with the
macro as `program.c` defines it: a failed call (`DAQmxFailed`, a negative status)
jumps out of the loop with that status as the error. -/
def writeDigitalLines (dev : Device) (doData : Nat) (st : LoopState) : Except Abort LoopState :=
  if dev.status st.trace.length < 0 then
    Except.error { status := dev.status st.trace.length, state := st }
  else
    Except.ok { st with trace := st.trace ++ [Event.write doData] }

/-- `DAQmxErrChk(DAQmxReadDigitalLines(diTask, ..., &diData, ...))` for the given
loop variable: the byte read and the new state, or the error. -/
def readDigitalLines (dev : Device) (tube : Nat) (st : LoopState) :
    Except Abort (Nat × LoopState) :=
  if dev.status st.trace.length < 0 then
    Except.error { status := dev.status st.trace.length, state := st }
  else
    Except.ok (dev.input st.trace.length, { st with trace := st.trace ++ [Event.read tube] })

/-- `std::this_thread::sleep_for(std::chrono::microseconds(us))`. -/
def sleepFor (us : Int) (st : LoopState) : LoopState :=
  { st with trace := st.trace ++ [Event.sleep us] }

/-- Step 6 of the loop body on the entry `lastValue[tube]`: the value the
entry holds afterwards.  `-1` is the mark for "EATING". -/
def processReading (diData : Nat) (last : Int) : Int :=
  let dataValue : Int := ((diData &&& 0x0F : Nat) : Int)
  let DV : Bool := (diData &&& 0x10) != 0
  if !DV then
    let tubeNumber := dataValue + 1
    tubeNumber
  else
    if dataValue = 0 ∧ last = 1 then -1 else last

/-- Step 6 on the whole array `lastValue`. -/
def storeReading (diData : Nat) (tube : Nat) (lastValue : Nat → Int) : Nat → Int :=
  fun j => if j = tube then processReading diData (lastValue tube) else lastValue j

/-- The body of the `for` loop of `mad.cpp` for loop variable `tube`. -/
def pollTube (dev : Device) (st : LoopState) (tube : Nat) : Except Abort LoopState := do
  let st ← writeDigitalLines dev 0x02 st
  let st := sleepFor readDelay st
  let (diData, st) ← readDigitalLines dev tube st
  let st := { st with lastValue := storeReading diData tube st.lastValue }
  let st := sleepFor remainingHighDelay st
  let st ← writeDigitalLines dev 0x00 st
  pure (sleepFor clockLowDuration st)

/-- The body of the `while (true)` loop of `mad.cpp`: one cycle. -/
def pollCycle (dev : Device) (st : LoopState) : Except Abort LoopState := do
  let st ← writeDigitalLines dev 0x01 st
  let st := sleepFor resetPulseDuration st
  let st ← writeDigitalLines dev 0x00 st
  (List.range numTubes).foldlM (pollTube dev) st

/-- The first `n` passes of the `while (true)` loop. -/
def pollCycles (dev : Device) : Nat → LoopState → Except Abort LoopState
  | 0, st => Except.ok st
  | n + 1, st => do
    let st ← pollCycle dev st
    pollCycles dev n st

/-- The events of the loop body for one tube. -/
def tubeEvents (tube : Nat) : List Event :=
  [Event.write 0x02, Event.sleep readDelay, Event.read tube,
   Event.sleep remainingHighDelay, Event.write 0x00, Event.sleep clockLowDuration]

/-- The events of one cycle. -/
def cycleEvents : List Event :=
  [Event.write 0x01, Event.sleep resetPulseDuration, Event.write 0x00] ++
    (List.range numTubes).flatMap tubeEvents

/-- The masks written, in order. -/
def writesOf : List Event → List Nat
  | [] => []
  | Event.write m :: es => m :: writesOf es
  | _ :: es => writesOf es

/-- The tubes read, in order. -/
def readsOf : List Event → List Nat
  | [] => []
  | Event.read k :: es => k :: readsOf es
  | _ :: es => readsOf es

/-- The byte whose bit `i` is `b i` for the four position lines and whose bit 4
is `dv`: the packed form of a sample that `mad.cpp` masks with `0x0F` and `0x10`. -/
def packBits (b0 b1 b2 b3 dv : Bool) : Nat :=
  b0.toNat + 2 * b1.toNat + 4 * b2.toNat + 8 * b3.toNat + 16 * dv.toNat

/-- A driver that never fails and delivers the byte `16` (DV high, position
bits low) at every read. -/
def quietDevice : Device := { status := fun _ => 0, input := fun _ => 16 }

/-- A driver whose call number `n` fails with status `-1` and whose other calls
succeed, delivering the byte `0` at every read. -/
def failAt (n : Nat) : Device :=
  { status := fun k => if k = n then -1 else 0, input := fun _ => 0 }

/-- The state of the polling loop before its first cycle, with `lastValue`
holding zeros. -/
def loopStart : LoopState := { trace := [], lastValue := fun _ => 0 }

/-- Whether an event is a driver call, the only events that can fail. -/
def isCall : Event → Bool
  | Event.write _ => true
  | Event.read _ => true
  | Event.sleep _ => false

/-- A list of events carried out one after the other against the driver, with
the error check of `DAQmxErrChk` on every call and Step 6 after every read. -/
def replay (dev : Device) : List Event → LoopState → Except Abort LoopState
  | [], st => Except.ok st
  | Event.write m :: es, st => do
    let st ← writeDigitalLines dev m st
    replay dev es st
  | Event.sleep us :: es, st => replay dev es (sleepFor us st)
  | Event.read k :: es, st => do
    let (diData, st) ← readDigitalLines dev k st
    replay dev es { st with lastValue := storeReading diData k st.lastValue }

/-! ## previous/program.c: the two threads side by side -/

/-- Where `outputThread` stands: the loop condition (line 111), the locked block
that publishes the reset (113-119), the two writes of the reset pulse (121, 125),
the locked block that clears `resetActive` (129-131), the `for` condition, and
for loop variable `i` the locked block that publishes clock high (136-140), the
write after it (142), the locked block that publishes clock low (146-150) and
the write after it (152). -/
inductive OutPc where
  | loopHead
  | publishReset
  | writeResetHigh
  | writeResetLow
  | clearReset
  | forHead (i : Nat)
  | publishHigh (i : Nat)
  | writeHigh (i : Nat)
  | publishLow (i : Nat)
  | writeLow (i : Nat)
  | returned
  deriving DecidableEq, Repr

/-- Where `inputThread` stands: the loop condition (line 165), the wait for the
reset (167-171), the `for` condition, and for tube `i` the wait for clock high
(176-180), the sleep, read and `processData` call (183-189), and the wait for
clock low (192-196). -/
inductive InPc where
  | loopHead
  | waitReset
  | forHead (i : Nat)
  | waitHigh (i : Fin NUM_TUBES)
  | sample (i : Fin NUM_TUBES)
  | waitLow (i : Fin NUM_TUBES)
  | returned
  deriving DecidableEq, Repr

/-- What the two threads do that the other can see, in the order it happens:
the flag updates of `outputThread` under `state.mutex`, its port writes, and
the `DAQmxReadDigitalLines` call of `inputThread` for tube `i`. -/
inductive Obs where
  | pubReset
  | pubHigh (i : Nat)
  | pubLow (i : Nat)
  | portWrite (reset clock : Nat)
  | read (i : Nat)
  deriving DecidableEq, Repr

/-- The shared `state`, the table `tubeReadings`, the local array `outputData`
of `outputThread`, the place each thread has reached, the number of reads made,
and what has been observed so far. -/
structure Sys where
  running : Bool
  resetActive : Bool
  clockHigh : Bool
  currentTube : Int
  outputData0 : Nat
  outputData1 : Nat
  outPc : OutPc
  inPc : InPc
  table : Table
  reads : Nat
  log : List Obs

/-- One step of `outputThread`.  A block between `EnterCriticalSection` and
`LeaveCriticalSection` is one step, since `state.mutex` keeps the other thread
out of its own blocks meanwhile. -/
def outputStep (s : Sys) : Sys :=
  match s.outPc with
  | OutPc.loopHead =>
    if s.running then { s with outPc := OutPc.publishReset } else { s with outPc := OutPc.returned }
  | OutPc.publishReset =>
    { s with outputData0 := 1, outputData1 := 0, resetActive := true, currentTube := 0,
             outPc := OutPc.writeResetHigh, log := s.log ++ [Obs.pubReset] }
  | OutPc.writeResetHigh =>
    { s with outPc := OutPc.writeResetLow,
             log := s.log ++ [Obs.portWrite s.outputData0 s.outputData1] }
  | OutPc.writeResetLow =>
    { s with outputData0 := 0, outPc := OutPc.clearReset,
             log := s.log ++ [Obs.portWrite 0 s.outputData1] }
  | OutPc.clearReset => { s with resetActive := false, outPc := OutPc.forHead 0 }
  | OutPc.forHead i =>
    if i < NUM_TUBES then { s with outPc := OutPc.publishHigh i }
    else { s with outPc := OutPc.loopHead }
  | OutPc.publishHigh i =>
    { s with outputData1 := 1, clockHigh := true, outPc := OutPc.writeHigh i,
             log := s.log ++ [Obs.pubHigh i] }
  | OutPc.writeHigh i =>
    { s with outPc := OutPc.publishLow i,
             log := s.log ++ [Obs.portWrite s.outputData0 s.outputData1] }
  | OutPc.publishLow i =>
    { s with outputData1 := 0, clockHigh := false, outPc := OutPc.writeLow i,
             log := s.log ++ [Obs.pubLow i] }
  | OutPc.writeLow i =>
    { s with outPc := OutPc.forHead (i + 1),
             log := s.log ++ [Obs.portWrite s.outputData0 s.outputData1] }
  | OutPc.returned => s

/-- One step of `inputThread`; `input n` is the sample that read number `n`
delivers.  A wait whose flag is not yet as awaited leaves the thread where it
is (it sleeps on the condition variable and checks again when it wakes). -/
def inputStep (input : Nat → Sample) (s : Sys) : Sys :=
  match s.inPc with
  | InPc.loopHead =>
    if s.running then { s with inPc := InPc.waitReset } else { s with inPc := InPc.returned }
  | InPc.waitReset => if s.resetActive then { s with inPc := InPc.forHead 0 } else s
  | InPc.forHead i =>
    if h : i < NUM_TUBES then { s with inPc := InPc.waitHigh ⟨i, h⟩ }
    else { s with inPc := InPc.loopHead }
  | InPc.waitHigh i => if s.clockHigh then { s with inPc := InPc.sample i } else s
  | InPc.sample i =>
    { s with table := processData (input s.reads) i s.table, reads := s.reads + 1,
             inPc := InPc.waitLow i, log := s.log ++ [Obs.read i.val] }
  | InPc.waitLow i => if s.clockHigh then s else { s with inPc := InPc.forHead (i.val + 1) }
  | InPc.returned => s

/-- Who takes the next step: `outputThread`, `inputThread`, or `main` clearing
`state.running` (line 275). -/
inductive Turn where
  | output
  | input
  | stop
  deriving DecidableEq, Repr

/-- One step of the program under the given turn. -/
def sysStep (input : Nat → Sample) (s : Sys) : Turn → Sys
  | Turn.output => outputStep s
  | Turn.input => inputStep input s
  | Turn.stop => { s with running := false }

/-- The program run under a schedule, a list of turns. -/
def runSchedule (input : Nat → Sample) (schedule : List Turn) (s : Sys) : Sys :=
  schedule.foldl (sysStep input) s

/-- The state when `main` has started the threads: `initializeState` has run,
neither thread has taken a step. -/
def sysStart : Sys :=
  { running := true, resetActive := false, clockHigh := false, currentTube := 0,
    outputData0 := 0, outputData1 := 0, outPc := OutPc.loopHead, inPc := InPc.loopHead,
    table := initializeState, reads := 0, log := [] }

/-- The ordering property on a log: every read of tube `k` falls after the
publication of clock high for `k` and before the next publication by
`outputThread`.  `window` is the tube whose clock-high publication is the
latest publication so far, if there is one. -/
def readsInsideWindow : Option Nat → List Obs → Bool
  | _, [] => true
  | _, Obs.pubReset :: l => readsInsideWindow none l
  | _, Obs.pubHigh i :: l => readsInsideWindow (some i) l
  | _, Obs.pubLow _ :: l => readsInsideWindow none l
  | w, Obs.portWrite _ _ :: l => readsInsideWindow w l
  | w, Obs.read i :: l => decide (w = some i) && readsInsideWindow w l

/-- A schedule in which `inputThread` leaves its wait for clock high of tube 0
and is then overtaken: `outputThread` writes the port and publishes clock low
before `inputThread` makes its read. -/
def overtakingSchedule : List Turn :=
  [Turn.output, Turn.output, Turn.input, Turn.input, Turn.input,
   Turn.output, Turn.output, Turn.output, Turn.output, Turn.output,
   Turn.input, Turn.output, Turn.output, Turn.input]

/-- A schedule in which `inputThread` makes its read of tube 0 before
`outputThread` goes on. -/
def promptSchedule : List Turn :=
  [Turn.output, Turn.output, Turn.input, Turn.input, Turn.input,
   Turn.output, Turn.output, Turn.output, Turn.output, Turn.output,
   Turn.input, Turn.input, Turn.output, Turn.output]

end MAD

namespace MAD

/-! ## Lemmas on the decoders -/

theorem processData_same (data : Sample) (tube : Fin NUM_TUBES) (t : Table) :
    processData data tube t tube = processEntry data (t tube) := by
  simp [processData]

theorem processData_other (data : Sample) (tube j : Fin NUM_TUBES) (t : Table) (h : j ≠ tube) :
    processData data tube t j = t j := by
  simp [processData, h]

theorem processEntry_dv_low (data : Sample) (r : TubeReading) (h : data.d4 = 0) :
    processEntry data r =
      { value := (data.d0 : Int) + (data.d1 : Int) * 1 + (data.d2 : Int) * 4 + (data.d3 : Int) * 8,
        isEating := false } := by
  simp [processEntry, h]

theorem processEntry_keeps_invariant (data : Sample) (r : TubeReading)
    (h : r.isEating = true → r.value = 1) :
    (processEntry data r).isEating = true → (processEntry data r).value = 1 := by
  unfold processEntry
  split
  · simp
  · split
    · rename_i hc
      intro _
      exact hc.2.2.2.2
    · exact h

theorem processReading_dv_low (diData : Nat) (last : Int) (h : diData &&& 0x10 = 0) :
    processReading diData last = ((diData &&& 0x0F : Nat) : Int) + 1 := by
  simp [processReading, h]

theorem processReading_dv_high (diData : Nat) (last : Int) (h : diData &&& 0x10 ≠ 0) :
    processReading diData last =
      if ((diData &&& 0x0F : Nat) : Int) = 0 ∧ last = 1 then -1 else last := by
  simp [processReading, h]

theorem packBits_masks (b0 b1 b2 b3 : Bool) :
    packBits b0 b1 b2 b3 false &&& 0x0F =
        b0.toNat + 2 * b1.toNat + 4 * b2.toNat + 8 * b3.toNat ∧
      packBits b0 b1 b2 b3 false &&& 0x10 = 0 := by
  cases b0 <;> cases b1 <;> cases b2 <;> cases b3 <;> decide

theorem runCalls_keeps_invariant (calls : List (Sample × Fin NUM_TUBES)) (t : Table)
    (h : ∀ j, (t j).isEating = true → (t j).value = 1) :
    ∀ j, (runCalls calls t j).isEating = true → (runCalls calls t j).value = 1 := by
  induction calls generalizing t with
  | nil => simpa [runCalls] using h
  | cons c cs ih =>
    have step : ∀ j, (processData c.1 c.2 t j).isEating = true →
        (processData c.1 c.2 t j).value = 1 := by
      intro j
      by_cases hj : j = c.2
      · rw [hj, processData_same]
        exact processEntry_keeps_invariant c.1 (t c.2) (h c.2)
      · rw [processData_other _ _ _ _ hj]
        exact h j
    simpa [runCalls] using ih (processData c.1 c.2 t) step

/-! ## Lemmas on the two loops -/

theorem clockPulse_fold (l : List Nat) (st : OutState) (h : st.outputData0 = 0) :
    (l.foldl clockPulse st).outputData0 = 0 ∧
      (l.foldl clockPulse st).writes = st.writes ++ l.flatMap (fun i =>
        [{ tube := some i, reset := 0, clock := 1 }, { tube := some i, reset := 0, clock := 0 }]) := by
  induction l generalizing st with
  | nil => simp [h]
  | cons i is ih =>
    have hstep : (clockPulse st i).outputData0 = 0 := by
      simp [clockPulse, writeOutputData, h]
    have hw : (clockPulse st i).writes = st.writes ++
        [{ tube := some i, reset := 0, clock := 1 }, { tube := some i, reset := 0, clock := 0 }] := by
      simp [clockPulse, writeOutputData, h]
    obtain ⟨h0, h1⟩ := ih (clockPulse st i) hstep
    refine ⟨by simpa using h0, ?_⟩
    rw [List.foldl_cons, h1, hw]
    simp

theorem outputCycle_writes (st : OutState) :
    (outputCycle st).writes = st.writes ++ cycleWrites := by
  unfold outputCycle
  simp only []
  rw [(clockPulse_fold _ _ (by simp [writeOutputData])).2]
  simp [writeOutputData, cycleWrites]

theorem outputCycle_iterate_writes (n : Nat) (st : OutState) :
    (outputCycle^[n] st).writes = st.writes ++ (List.replicate n cycleWrites).flatten := by
  induction n generalizing st with
  | zero => simp
  | succ n ih =>
    rw [Function.iterate_succ_apply, ih, outputCycle_writes]
    simp [List.replicate_succ]

theorem outputThread_returns (running : Nat → Bool) (n : Nat) :
    ∀ (k : Nat) (st : OutState), (∀ i, i < n → running (k + i) = true) →
      running (k + n) = false → ∀ fuel, n < fuel →
      outputThread running fuel k st = some (outputCycle^[n] st) := by
  induction n with
  | zero =>
    intro k st _ hstop fuel hfuel
    obtain ⟨f, rfl⟩ := Nat.exists_eq_succ_of_ne_zero (Nat.pos_iff_ne_zero.mp hfuel)
    simp [outputThread, show running k = false by simpa using hstop]
  | succ n ih =>
    intro k st hrun hstop fuel hfuel
    obtain ⟨f, rfl⟩ := Nat.exists_eq_succ_of_ne_zero (Nat.pos_iff_ne_zero.mp (Nat.zero_lt_of_lt hfuel))
    have h0 : running k = true := by simpa using hrun 0 (Nat.succ_pos n)
    rw [outputThread, if_pos h0, Function.iterate_succ_apply]
    apply ih (k + 1) (outputCycle st)
    · intro i hi
      have := hrun (i + 1) (Nat.succ_lt_succ hi)
      rwa [show k + 1 + i = k + (i + 1) by omega]
    · rwa [show k + 1 + n = k + (n + 1) by omega]
    · omega

theorem outputThread_result (running : Nat → Bool) :
    ∀ (fuel k : Nat) (st st' : OutState), outputThread running fuel k st = some st' →
      ∃ n, st' = outputCycle^[n] st ∧ running (k + n) = false := by
  intro fuel
  induction fuel with
  | zero => intro k st st' h; simp [outputThread] at h
  | succ f ih =>
    intro k st st' h
    rw [outputThread] at h
    by_cases hr : running k = true
    · rw [if_pos hr] at h
      obtain ⟨n, hn, hstop⟩ := ih (k + 1) (outputCycle st) st' h
      refine ⟨n + 1, ?_, ?_⟩
      · rw [Function.iterate_succ_apply]
        exact hn
      · rwa [show k + (n + 1) = k + 1 + n by omega]
    · rw [if_neg hr] at h
      refine ⟨0, ?_, ?_⟩
      · simpa using (Option.some.inj h).symm
      · simpa using hr

theorem cycleWrites_last : cycleWrites.getLast? = some { tube := some 15, reset := 0, clock := 0 } := by
  decide

theorem replay_write (dev : Device) (m : Nat) (es : List Event) (st : LoopState) :
    replay dev (Event.write m :: es) st =
      if dev.status st.trace.length < 0 then
        Except.error { status := dev.status st.trace.length, state := st }
      else replay dev es { st with trace := st.trace ++ [Event.write m] } := by
  by_cases hc : dev.status st.trace.length < 0 <;>
    simp [replay, writeDigitalLines, bind, Except.bind, hc]

theorem replay_read (dev : Device) (k : Nat) (es : List Event) (st : LoopState) :
    replay dev (Event.read k :: es) st =
      if dev.status st.trace.length < 0 then
        Except.error { status := dev.status st.trace.length, state := st }
      else replay dev es { trace := st.trace ++ [Event.read k],
                           lastValue := storeReading (dev.input st.trace.length) k st.lastValue } := by
  by_cases hc : dev.status st.trace.length < 0 <;>
    simp [replay, readDigitalLines, bind, Except.bind, hc]

theorem replay_sleep (dev : Device) (us : Int) (es : List Event) (st : LoopState) :
    replay dev (Event.sleep us :: es) st =
      replay dev es { st with trace := st.trace ++ [Event.sleep us] } := rfl

theorem pollTube_replay (dev : Device) (st : LoopState) (tube : Nat) :
    pollTube dev st tube = replay dev (tubeEvents tube) st := by
  simp only [pollTube, tubeEvents, replay, bind, Except.bind, pure, Except.pure]

theorem replay_append (dev : Device) (xs ys : List Event) (st : LoopState) :
    replay dev (xs ++ ys) st = (replay dev xs st >>= replay dev ys) := by
  induction xs generalizing st with
  | nil => rfl
  | cons e es ih =>
    cases e with
    | write m =>
      rw [List.cons_append, replay_write, replay_write]
      split
      · rfl
      · exact ih _
    | sleep us =>
      rw [List.cons_append, replay_sleep, replay_sleep]
      exact ih _
    | read k =>
      rw [List.cons_append, replay_read, replay_read]
      split
      · rfl
      · exact ih _

theorem pollTube_fold (dev : Device) (l : List Nat) (st : LoopState) :
    l.foldlM (pollTube dev) st = replay dev (l.flatMap tubeEvents) st := by
  induction l generalizing st with
  | nil => rfl
  | cons i is ih =>
    rw [List.foldlM_cons, List.flatMap_cons, replay_append, pollTube_replay]
    cases replay dev (tubeEvents i) st with
    | error a => rfl
    | ok s1 => exact ih s1

theorem pollCycle_replay (dev : Device) (st : LoopState) :
    pollCycle dev st = replay dev cycleEvents st := by
  rw [cycleEvents, replay_append]
  simp only [pollCycle, replay, bind, Except.bind]
  cases writeDigitalLines dev 0x01 st with
  | error a => rfl
  | ok s1 =>
    simp only []
    cases writeDigitalLines dev 0x00 (sleepFor resetPulseDuration s1) with
    | error a => rfl
    | ok s2 => exact pollTube_fold dev _ s2

theorem replay_ok_trace (dev : Device) (es : List Event) (st st' : LoopState)
    (h : replay dev es st = Except.ok st') : st'.trace = st.trace ++ es := by
  induction es generalizing st with
  | nil =>
    simp only [replay] at h
    cases h
    simp
  | cons e es ih =>
    cases e with
    | write m =>
      rw [replay_write] at h
      split at h
      · cases h
      · rw [ih _ h]
        simp
    | sleep us =>
      rw [replay_sleep] at h
      rw [ih _ h]
      simp
    | read k =>
      rw [replay_read] at h
      split at h
      · cases h
      · rw [ih _ h]
        simp

theorem replay_error_trace (dev : Device) (es : List Event) (st : LoopState) (a : Abort)
    (h : replay dev es st = Except.error a) :
    ∃ n, n < es.length ∧ a.state.trace = st.trace ++ es.take n ∧
      a.status = dev.status (st.trace.length + n) ∧ a.status < 0 := by
  induction es generalizing st with
  | nil => simp [replay] at h
  | cons e es ih =>
    have shift : ∀ (s1 : LoopState), s1.trace = st.trace ++ [e] →
        replay dev es s1 = Except.error a →
        ∃ n, n < (e :: es).length ∧ a.state.trace = st.trace ++ (e :: es).take n ∧
          a.status = dev.status (st.trace.length + n) ∧ a.status < 0 := by
      intro s1 ht hr
      obtain ⟨n, hn, htr, hs, hneg⟩ := ih s1 hr
      refine ⟨n + 1, by simpa using hn, ?_, ?_, hneg⟩
      · rw [htr, ht]
        simp
      · rw [hs, ht]
        simp [Nat.add_assoc, Nat.add_comm 1 n]
    cases e with
    | write m =>
      rw [replay_write] at h
      split at h
      · rename_i hneg
        cases h
        exact ⟨0, by simp, by simp, by simp, hneg⟩
      · exact shift _ rfl h
    | sleep us =>
      rw [replay_sleep] at h
      exact shift _ rfl h
    | read k =>
      rw [replay_read] at h
      split at h
      · rename_i hneg
        cases h
        exact ⟨0, by simp, by simp, by simp, hneg⟩
      · exact shift _ rfl h

theorem replay_succeeds (dev : Device) (es : List Event) (st : LoopState)
    (h : ∀ i e, es[i]? = some e → isCall e = true → 0 ≤ dev.status (st.trace.length + i)) :
    ∃ st', replay dev es st = Except.ok st' := by
  induction es generalizing st with
  | nil => exact ⟨st, rfl⟩
  | cons e es ih =>
    have tail : ∀ (s1 : LoopState), s1.trace = st.trace ++ [e] →
        ∃ st', replay dev es s1 = Except.ok st' := by
      intro s1 ht
      apply ih
      intro i e' hi hc
      have := h (i + 1) e' (by simpa using hi) hc
      rw [ht]
      simpa [Nat.add_assoc, Nat.add_comm 1 i] using this
    have head : isCall e = true → ¬ dev.status st.trace.length < 0 := by
      intro hc
      have := h 0 e (by simp) hc
      simpa using this
    cases e with
    | write m =>
      rw [replay_write, if_neg (head rfl)]
      exact tail _ rfl
    | sleep us =>
      rw [replay_sleep]
      exact tail _ rfl
    | read k =>
      rw [replay_read, if_neg (head rfl)]
      exact tail _ rfl

theorem replay_ok_calls (dev : Device) (es : List Event) (st st' : LoopState)
    (h : replay dev es st = Except.ok st') :
    ∀ i e, es[i]? = some e → isCall e = true → 0 ≤ dev.status (st.trace.length + i) := by
  induction es generalizing st with
  | nil => intro i e hi; simp at hi
  | cons e0 es ih =>
    have tail : ∀ (s1 : LoopState), s1.trace = st.trace ++ [e0] →
        replay dev es s1 = Except.ok st' →
        ∀ i e, es[i]? = some e → isCall e = true →
          0 ≤ dev.status (st.trace.length + (i + 1)) := by
      intro s1 ht hr i e hi hc
      have := ih s1 hr i e hi hc
      rw [ht] at this
      simpa [Nat.add_assoc, Nat.add_comm 1 i] using this
    cases e0 with
    | write m =>
      rw [replay_write] at h
      split at h
      · cases h
      · rename_i hpos
        intro i e hi hc
        cases i with
        | zero => simpa using not_lt.mp hpos
        | succ j => exact tail _ rfl h j e (by simpa using hi) hc
    | sleep us =>
      rw [replay_sleep] at h
      intro i e hi hc
      cases i with
      | zero =>
        simp at hi
        subst hi
        simp [isCall] at hc
      | succ j => exact tail _ rfl h j e (by simpa using hi) hc
    | read k =>
      rw [replay_read] at h
      split at h
      · cases h
      · rename_i hpos
        intro i e hi hc
        cases i with
        | zero => simpa using not_lt.mp hpos
        | succ j => exact tail _ rfl h j e (by simpa using hi) hc

theorem writesOf_append (xs ys : List Event) : writesOf (xs ++ ys) = writesOf xs ++ writesOf ys := by
  induction xs with
  | nil => rfl
  | cons e es ih => cases e <;> simp [writesOf, ih]

theorem readsOf_append (xs ys : List Event) : readsOf (xs ++ ys) = readsOf xs ++ readsOf ys := by
  induction xs with
  | nil => rfl
  | cons e es ih => cases e <;> simp [readsOf, ih]

theorem writesOf_cycleEvents :
    writesOf cycleEvents = [1, 0] ++ (List.range 16).flatMap (fun _ => [2, 0]) := by
  decide

theorem writesOf_take (es : List Event) (n : Nat) : writesOf (es.take n) <+: writesOf es := by
  have h : writesOf es = writesOf (es.take n) ++ writesOf (es.drop n) := by
    rw [← writesOf_append, List.take_append_drop]
  rw [h]
  exact List.prefix_append _ _

/-! ## The claims on the decoders -/

/-- C1, the code on samples with DV low: for position bits `b0..b3`, whatever the
table held, `processData` stores `b0 + b1 + 4*b2 + 8*b3` for the tube, without
adding 1, and clears the eating flag.  At the bits 0000 the stored value is 0,
not the position 1, and `displayThread` then shows the tube as idle. -/
theorem processData_zero_bits_stores_zero (tube : Fin NUM_TUBES) (t : Table)
    (b0 b1 b2 b3 : Bool) :
    processData (sampleOfBits b0 b1 b2 b3 false) tube t tube =
        { value := ((b0.toNat + b1.toNat + 4 * b2.toNat + 8 * b3.toNat : Nat) : Int),
          isEating := false } ∧
      processData (sampleOfBits false false false false false) tube t tube =
        { value := 0, isEating := false } ∧
      displayReading (processData (sampleOfBits false false false false false) tube t tube) =
        Display.idle := by
  rw [processData_same, processData_same, processEntry_dv_low _ _ rfl,
    processEntry_dv_low _ _ rfl]
  refine ⟨?_, rfl, rfl⟩
  simp only [sampleOfBits]
  congr 1
  push_cast
  ring

/-- C2: on a sample whose DV line is high, `processData` marks the tube as eating
when the four position lines are 0 and the stored value is 1, and otherwise
leaves the whole table as it was; a tube shown at a position other than 1 stays
shown at that position.  The DV-high branch of `mad.cpp` stores the eating
mark `-1` when the four data bits are 0 and the last value is 1, and otherwise
leaves `lastValue` as it was. -/
theorem dv_high_marks_eating_or_holds (data : Sample) (tube : Fin NUM_TUBES) (t : Table)
    (diData k : Nat) (lastValue : Nat → Int)
    (hdv : data.d4 ≠ 0) (hDV : diData &&& 0x10 ≠ 0) :
    ((data.d0 = 0 ∧ data.d1 = 0 ∧ data.d2 = 0 ∧ data.d3 = 0 ∧ (t tube).value = 1) →
        processData data tube t tube = { value := 1, isEating := true } ∧
        displayReading (processData data tube t tube) = Display.eating) ∧
      (¬ (data.d0 = 0 ∧ data.d1 = 0 ∧ data.d2 = 0 ∧ data.d3 = 0 ∧ (t tube).value = 1) →
        processData data tube t = t) ∧
      (∀ j, j ≠ tube → processData data tube t j = t j) ∧
      (∀ p : Int, p ≠ 1 → displayReading (t tube) = Display.position p →
        displayReading (processData data tube t tube) = Display.position p) ∧
      ((diData &&& 0x0F = 0 ∧ lastValue k = 1) → storeReading diData k lastValue k = -1) ∧
      (¬ (diData &&& 0x0F = 0 ∧ lastValue k = 1) →
        storeReading diData k lastValue = lastValue) ∧
      (∀ j, j ≠ k → storeReading diData k lastValue j = lastValue j) := by
  have hold : ¬ (data.d0 = 0 ∧ data.d1 = 0 ∧ data.d2 = 0 ∧ data.d3 = 0 ∧ (t tube).value = 1) →
      processData data tube t = t := by
    intro hc
    funext j
    by_cases hj : j = tube
    · subst hj
      rw [processData_same]
      simp [processEntry, hdv, hc]
    · exact processData_other _ _ _ _ hj
  refine ⟨?_, hold, ?_, ?_, ?_, ?_, ?_⟩
  · intro hc
    rw [processData_same]
    have hv : (t tube).value = 1 := hc.2.2.2.2
    have hentry : processEntry data (t tube) = { value := 1, isEating := true } := by
      unfold processEntry
      rw [if_neg hdv, if_pos hc, ← hv]
    rw [hentry]
    exact ⟨rfl, rfl⟩
  · intro j hj
    exact processData_other _ _ _ _ hj
  · intro p hp hshow
    have hval : (t tube).value = p := by
      unfold displayReading at hshow
      split at hshow
      · exact absurd hshow (by simp)
      · split at hshow
        · simpa using hshow
        · exact absurd hshow (by simp)
    have hne : ¬ (data.d0 = 0 ∧ data.d1 = 0 ∧ data.d2 = 0 ∧ data.d3 = 0 ∧ (t tube).value = 1) := by
      intro hc
      exact hp (hval ▸ hc.2.2.2.2)
    rw [hold hne]
    exact hshow
  · intro hc
    simp only [storeReading, if_true]
    rw [processReading_dv_high _ _ hDV]
    simp [hc.1, hc.2]
  · intro hc
    funext j
    by_cases hj : j = k
    · subst hj
      simp only [storeReading, if_true]
      rw [processReading_dv_high _ _ hDV]
      have : ¬ (((diData &&& 0x0F : Nat) : Int) = 0 ∧ lastValue j = 1) := by
        intro h
        exact hc ⟨by exact_mod_cast h.1, h.2⟩
      rw [if_neg this]
    · simp [storeReading, hj]
  · intro j hj
    simp [storeReading, hj]

/-- C2 at a concrete input: a tube holding the value 1 and the sample
`dv = 1, bits = 0000`; the byte `16` and the last value 1 for `mad.cpp`. -/
theorem dv_high_marks_eating_or_holds_witness :
    (sampleOfBits false false false false true).d4 ≠ 0 ∧ (16 : Nat) &&& 0x10 ≠ 0 ∧
      processData (sampleOfBits false false false false true) tube0
          (fun _ => { value := 1, isEating := false }) tube0 = { value := 1, isEating := true } ∧
      storeReading 16 3 (fun _ => 1) 3 = -1 :=
  ⟨by decide, by decide,
    ((dv_high_marks_eating_or_holds (sampleOfBits false false false false true) tube0
        (fun _ => { value := 1, isEating := false }) 16 3 (fun _ => 1)
        (by decide) (by decide)).1 (by decide)).1,
    (dv_high_marks_eating_or_holds (sampleOfBits false false false false true) tube0
        (fun _ => { value := 1, isEating := false }) 16 3 (fun _ => 1)
        (by decide) (by decide)).2.2.2.2.1 (by decide)⟩

/-- C3, the code on the scenario: from the table of `initializeState`, the
samples `(dv=0, 0000)`, `(dv=1, 0000)`, `(dv=0, 1111)` for tube 0 make
`displayThread` show the tube idle after the first, idle after the second and at
position 14 after the third; the eating flag is never set. -/
theorem full_cycle_scenario_readings :
    displayReading
        (runCalls [(sampleOfBits false false false false false, tube0)] initializeState tube0) =
        Display.idle ∧
      displayReading
        (runCalls [(sampleOfBits false false false false false, tube0),
          (sampleOfBits false false false false true, tube0)] initializeState tube0) =
        Display.idle ∧
      displayReading
        (runCalls [(sampleOfBits false false false false false, tube0),
          (sampleOfBits false false false false true, tube0),
          (sampleOfBits true true true true false, tube0)] initializeState tube0) =
        Display.position 14 := by
  decide

/-- C8: on a sample whose DV line is low, decoding the same sample a second
time changes nothing: the table after two calls of `processData` is the table
after one, the tube is shown the same both times, and the same holds for the
array `lastValue` under the DV-low branch of `mad.cpp`. -/
theorem dv_low_decode_idempotent (data : Sample) (tube : Fin NUM_TUBES) (t : Table)
    (diData k : Nat) (lastValue : Nat → Int)
    (hdv : data.d4 = 0) (hDV : diData &&& 0x10 = 0) :
    processData data tube (processData data tube t) = processData data tube t ∧
      displayReading (processData data tube (processData data tube t) tube) =
        displayReading (processData data tube t tube) ∧
      storeReading diData k (storeReading diData k lastValue) =
        storeReading diData k lastValue ∧
      storeReading diData k lastValue k = ((diData &&& 0x0F : Nat) : Int) + 1 := by
  have h1 : processData data tube (processData data tube t) = processData data tube t := by
    funext j
    by_cases hj : j = tube
    · rw [hj, processData_same, processData_same, processEntry_dv_low _ _ hdv,
        processEntry_dv_low _ _ hdv]
    · rw [processData_other _ _ _ _ hj]
  have h2 : storeReading diData k (storeReading diData k lastValue) =
      storeReading diData k lastValue := by
    funext j
    by_cases hj : j = k
    · simp only [storeReading, hj, if_true]
      rw [processReading_dv_low _ _ hDV, processReading_dv_low _ _ hDV]
    · simp [storeReading, hj]
  refine ⟨h1, by rw [h1], h2, ?_⟩
  simp only [storeReading, if_true]
  exact processReading_dv_low _ _ hDV

/-- C8 at a concrete input: the sample `dv = 0, bits = 0101` on the initial
table, and the byte `10` on an array holding the eating mark. -/
theorem dv_low_decode_idempotent_witness :
    (sampleOfBits false true false true false).d4 = 0 ∧ (10 : Nat) &&& 0x10 = 0 ∧
      processData (sampleOfBits false true false true false) tube0
          (processData (sampleOfBits false true false true false) tube0 initializeState) =
        processData (sampleOfBits false true false true false) tube0 initializeState ∧
      storeReading 10 2 (storeReading 10 2 (fun _ => -1)) = storeReading 10 2 (fun _ => -1) :=
  ⟨by decide, by decide,
    (dv_low_decode_idempotent (sampleOfBits false true false true false) tube0 initializeState
      10 2 (fun _ => -1) (by decide) (by decide)).1,
    (dv_low_decode_idempotent (sampleOfBits false true false true false) tube0 initializeState
      10 2 (fun _ => -1) (by decide) (by decide)).2.2.1⟩

/-- C9: for position bits `b0..b3` and DV low, `processData` stores
`b0 + b1 + 4*b2 + 8*b3` in the entry of the tube, while `mad.cpp` masks the
packed byte to `b0 + 2*b1 + 4*b2 + 8*b3` and stores that plus 1 in
`lastValue[tube]`, a number from 1 to 16 (1 for the bits 0000, 16 for the bits
1111).  The two weighted values agree exactly when `b1` is 0, and the second
exceeds the first by `b1`. -/
theorem weighting_differs_in_second_bit (b0 b1 b2 b3 : Bool) (tube : Fin NUM_TUBES)
    (t : Table) (k : Nat) (lastValue : Nat → Int) :
    (processData (sampleOfBits b0 b1 b2 b3 false) tube t tube).value =
        ((b0.toNat + b1.toNat + 4 * b2.toNat + 8 * b3.toNat : Nat) : Int) ∧
      packBits b0 b1 b2 b3 false &&& 0x0F =
        b0.toNat + 2 * b1.toNat + 4 * b2.toNat + 8 * b3.toNat ∧
      storeReading (packBits b0 b1 b2 b3 false) k lastValue k =
        ((packBits b0 b1 b2 b3 false &&& 0x0F : Nat) : Int) + 1 ∧
      1 ≤ storeReading (packBits b0 b1 b2 b3 false) k lastValue k ∧
      storeReading (packBits b0 b1 b2 b3 false) k lastValue k ≤ 16 ∧
      storeReading (packBits false false false false false) k lastValue k = 1 ∧
      storeReading (packBits true true true true false) k lastValue k = 16 ∧
      ((((packBits b0 b1 b2 b3 false &&& 0x0F : Nat) : Int) =
          (processData (sampleOfBits b0 b1 b2 b3 false) tube t tube).value) ↔ b1 = false) ∧
      ((packBits b0 b1 b2 b3 false &&& 0x0F : Nat) : Int) =
        (processData (sampleOfBits b0 b1 b2 b3 false) tube t tube).value + (b1.toNat : Int) := by
  have hdata := (packBits_masks b0 b1 b2 b3).1
  have hvalid := (packBits_masks b0 b1 b2 b3).2
  have hentry : (processData (sampleOfBits b0 b1 b2 b3 false) tube t tube).value =
      ((b0.toNat + b1.toNat + 4 * b2.toNat + 8 * b3.toNat : Nat) : Int) := by
    rw [processData_same, processEntry_dv_low _ _ rfl]
    simp only [sampleOfBits]
    push_cast
    ring
  have hstore : ∀ d, storeReading d k lastValue k = processReading d (lastValue k) := by
    intro d
    simp only [storeReading, if_true]
  have hlow : storeReading (packBits false false false false false) k lastValue k = 1 := by
    rw [hstore, processReading_dv_low _ _ (by decide)]
    decide
  have hhigh : storeReading (packBits true true true true false) k lastValue k = 16 := by
    rw [hstore, processReading_dv_low _ _ (by decide)]
    decide
  rw [hstore, processReading_dv_low _ _ hvalid, hentry, hdata]
  refine ⟨rfl, rfl, rfl, ?_, ?_, hlow, hhigh, ?_, ?_⟩ <;>
    cases b0 <;> cases b1 <;> cases b2 <;> cases b3 <;> decide

/-- C10: after any finite sequence of `processData` calls on the table of
`initializeState`, a tube whose eating flag is set holds the value 1. -/
theorem eating_flag_implies_value_one (calls : List (Sample × Fin NUM_TUBES))
    (tube : Fin NUM_TUBES)
    (h : (runCalls calls initializeState tube).isEating = true) :
    (runCalls calls initializeState tube).value = 1 ∧
      displayReading (runCalls calls initializeState tube) = Display.eating := by
  constructor
  · exact runCalls_keeps_invariant calls initializeState (by intro j hj; simp [initializeState] at hj)
      tube h
  · simp [displayReading, h]

/-- C10 at a concrete input: the samples `(dv=0, 1000)` then `(dv=1, 0000)`
for tube 0 set its eating flag. -/
theorem eating_flag_implies_value_one_witness :
    (runCalls [(sampleOfBits true false false false false, tube0),
        (sampleOfBits false false false false true, tube0)] initializeState tube0).isEating = true ∧
      (runCalls [(sampleOfBits true false false false false, tube0),
        (sampleOfBits false false false false true, tube0)] initializeState tube0).value = 1 :=
  ⟨by decide,
    (eating_flag_implies_value_one [(sampleOfBits true false false false false, tube0),
        (sampleOfBits false false false false true, tube0)] tube0 (by decide)).1⟩

/-! ## The claims on the bus sequence -/

/-- C4 as stated fails on a cycle in which a driver call fails: when the read of
tube 0 fails, `DAQmxErrChk` leaves the loop after the events shown, and no tube
has been read in that cycle. -/
theorem cycle_with_failing_read_reads_no_tube :
    ∃ a, pollCycle (failAt 5) loopStart = Except.error a ∧ a.status = -1 ∧
      a.state.trace =
        [Event.write 1, Event.sleep 600, Event.write 0, Event.write 2, Event.sleep 200] ∧
      readsOf a.state.trace = [] :=
  ⟨_, rfl, rfl, rfl, rfl⟩

/-- C4, amended: a cycle of the polling loop of `mad.cpp` runs to its end exactly
when none of its driver calls fails, and then it has appended exactly the events
`cycleEvents` to the run, from any earlier state and for any driver.  For every
tube `k` below 16 these hold the clock-high write `0x02`, a sleep of 200 us, the
one read of tube `k`, a sleep of 300 us and the clock-low write `0x00`, in this
order and next to each other; the reads of the cycle are the tubes 0 to 15, each
once; and `0 < readDelay < clockHighDuration` with
`readDelay + remainingHighDelay = clockHighDuration = 500`.  A cycle in which a
call fails has carried out exactly the events before that call. -/
theorem read_lies_inside_clock_high (dev : Device) (st : LoopState) :
    ((∃ st', pollCycle dev st = Except.ok st') ↔
        ∀ i e, cycleEvents[i]? = some e → isCall e = true →
          0 ≤ dev.status (st.trace.length + i)) ∧
      (∀ st', pollCycle dev st = Except.ok st' → st'.trace = st.trace ++ cycleEvents) ∧
      (∀ a, pollCycle dev st = Except.error a →
        ∃ n, n < cycleEvents.length ∧ a.state.trace = st.trace ++ cycleEvents.take n ∧
          a.status = dev.status (st.trace.length + n) ∧ a.status < 0) ∧
      cycleEvents =
        [Event.write 1, Event.sleep 600, Event.write 0] ++
          (List.range 16).flatMap (fun k =>
            [Event.write 2, Event.sleep 200, Event.read k, Event.sleep 300, Event.write 0,
              Event.sleep 500]) ∧
      (∀ k, k < 16 →
        cycleEvents[3 + 6 * k]? = some (Event.write 2) ∧
        cycleEvents[3 + 6 * k + 1]? = some (Event.sleep readDelay) ∧
        cycleEvents[3 + 6 * k + 2]? = some (Event.read k) ∧
        cycleEvents[3 + 6 * k + 3]? = some (Event.sleep remainingHighDelay) ∧
        cycleEvents[3 + 6 * k + 4]? = some (Event.write 0) ∧
        cycleEvents.count (Event.read k) = 1) ∧
      readsOf cycleEvents = List.range 16 ∧
      readDelay = 200 ∧ remainingHighDelay = 300 ∧ clockHighDuration = 500 ∧
      0 < readDelay ∧ readDelay < clockHighDuration ∧
      readDelay + remainingHighDelay = clockHighDuration := by
  refine ⟨⟨?_, ?_⟩, ?_, ?_, by decide, ?_, by decide, by decide, by decide, by decide,
    by decide, by decide, by decide⟩
  · rintro ⟨st', h⟩
    rw [pollCycle_replay] at h
    exact replay_ok_calls dev cycleEvents st st' h
  · intro h
    rw [pollCycle_replay]
    exact replay_succeeds dev cycleEvents st h
  · intro st' h
    rw [pollCycle_replay] at h
    exact replay_ok_trace dev cycleEvents st st' h
  · intro a h
    rw [pollCycle_replay] at h
    exact replay_error_trace dev cycleEvents st a h
  · intro k hk
    interval_cases k <;> decide

/-- C4 at a concrete input: a driver that never fails, started with no events. -/
theorem read_lies_inside_clock_high_witness :
    ∃ st', pollCycle quietDevice loopStart = Except.ok st' ∧
      st'.trace = loopStart.trace ++ cycleEvents := by
  obtain ⟨st', h⟩ := (read_lies_inside_clock_high quietDevice loopStart).1.mpr
    (fun _ _ _ _ => le_refl _)
  exact ⟨st', h, (read_lies_inside_clock_high quietDevice loopStart).2.1 st' h⟩

/-- C6 as stated fails on a cycle of `mad.cpp` in which a driver call fails: when
the clock-low write of tube 0 fails, the cycle has written three masks, not 34,
the last of them with the clock line high. -/
theorem cycle_with_failing_write_is_cut :
    ∃ a, pollCycle (failAt 7) loopStart = Except.error a ∧ a.status = -1 ∧
      writesOf a.state.trace = [1, 0, 2] :=
  ⟨_, rfl, rfl, rfl⟩

/-- C6, amended: every cycle of `outputThread`, and every cycle of `mad.cpp` that
runs to its end (none of its driver calls fails), writes the output port 34
times: in `mad.cpp` the masks `0x01`, `0x00`, then sixteen times `0x02`, `0x00`;
in `outputThread` the pairs (reset, clock) (1,0), (0,0), then for `i` from 0 to 15
in ascending order (0,1), (0,0).  The masks are the pairs read as bit 0 = reset,
bit 1 = clock.  A cycle of `mad.cpp` in which a call fails has written an initial
part of the 34 masks.  No write has both lines high. -/
theorem port_writes_of_a_cycle (dev : Device) (st : LoopState) (out : OutState) :
    (∀ st', pollCycle dev st = Except.ok st' →
        writesOf st'.trace =
          writesOf st.trace ++ ([1, 0] ++ (List.range 16).flatMap (fun _ => [2, 0]))) ∧
      ((∀ i e, cycleEvents[i]? = some e → isCall e = true →
          0 ≤ dev.status (st.trace.length + i)) →
        ∃ st', pollCycle dev st = Except.ok st') ∧
      (∀ a, pollCycle dev st = Except.error a →
        ∃ ws, writesOf a.state.trace = writesOf st.trace ++ ws ∧
          ws <+: ([1, 0] ++ (List.range 16).flatMap (fun _ => [2, 0]))) ∧
      (outputCycle out).writes =
        out.writes ++
          ([{ tube := none, reset := 1, clock := 0 }, { tube := none, reset := 0, clock := 0 }] ++
            (List.range 16).flatMap (fun i =>
              [{ tube := some i, reset := 0, clock := 1 },
                { tube := some i, reset := 0, clock := 0 }])) ∧
      ([1, 0] ++ (List.range 16).flatMap (fun _ => [2, 0]) : List Nat).length = 34 ∧
      cycleWrites.length = 34 ∧
      ([1, 0] ++ (List.range 16).flatMap (fun _ => [2, 0]) : List Nat) =
        cycleWrites.map (fun w => w.reset + 2 * w.clock) ∧
      (∀ w, w ∈ cycleWrites → ¬ (w.reset = 1 ∧ w.clock = 1)) ∧
      (∀ m, m ∈ ([1, 0] ++ (List.range 16).flatMap (fun _ => [2, 0]) : List Nat) →
        m = 0 ∨ m = 1 ∨ m = 2) := by
  refine ⟨?_, ?_, ?_, ?_, by decide, by decide, by decide, by decide, by decide⟩
  · intro st' h
    rw [pollCycle_replay] at h
    rw [replay_ok_trace dev cycleEvents st st' h, writesOf_append, writesOf_cycleEvents]
  · intro h
    rw [pollCycle_replay]
    exact replay_succeeds dev cycleEvents st h
  · intro a h
    rw [pollCycle_replay] at h
    obtain ⟨n, _, htr, _, _⟩ := replay_error_trace dev cycleEvents st a h
    refine ⟨writesOf (cycleEvents.take n), ?_, ?_⟩
    · rw [htr, writesOf_append]
    · rw [← writesOf_cycleEvents]
      exact writesOf_take cycleEvents n
  · rw [outputCycle_writes]
    rfl

/-- C6 at a concrete input: a driver that never fails, started with no events. -/
theorem port_writes_of_a_cycle_witness :
    ∃ st', pollCycle quietDevice loopStart = Except.ok st' ∧
      writesOf st'.trace =
        writesOf loopStart.trace ++ ([1, 0] ++ (List.range 16).flatMap (fun _ => [2, 0])) := by
  obtain ⟨st', h⟩ := (port_writes_of_a_cycle quietDevice loopStart (outputStart 7 9)).2.1
    (fun _ _ _ _ => le_refl _)
  exact ⟨st', h, (port_writes_of_a_cycle quietDevice loopStart (outputStart 7 9)).1 st' h⟩

/-- C7: whatever values `state.running` shows at the loop condition, if
`outputThread` returns after at least one write then its last write has the
reset line and the clock line low (it is the clock-low write of tube 15); and
the thread does return once the flag is seen false. -/
theorem outputThread_stops_with_lines_low (running : Nat → Bool) (o0 o1 : Nat) :
    (∀ fuel st', outputThread running fuel 0 (outputStart o0 o1) = some st' →
        st'.writes ≠ [] →
        st'.writes.getLast? = some { tube := some 15, reset := 0, clock := 0 }) ∧
      (∀ n, (∀ i, i < n → running i = true) → running n = false →
        ∃ st', outputThread running (n + 1) 0 (outputStart o0 o1) = some st' ∧
          st'.writes = (List.replicate n cycleWrites).flatten) := by
  constructor
  · intro fuel st' hret hne
    obtain ⟨n, hn, _⟩ := outputThread_result running fuel 0 _ _ hret
    have hw : st'.writes = (List.replicate n cycleWrites).flatten := by
      rw [hn, outputCycle_iterate_writes]
      simp [outputStart]
    cases n with
    | zero => exact absurd (by simpa using hw) hne
    | succ m =>
      rw [hw, List.replicate_succ', List.flatten_append]
      simp only [List.flatten_cons, List.flatten_nil, List.append_nil]
      rw [List.getLast?_append, cycleWrites_last]
      rfl
  · intro n hrun hstop
    refine ⟨outputCycle^[n] (outputStart o0 o1), ?_, ?_⟩
    · exact outputThread_returns running n 0 _ (by simpa using hrun) (by simpa using hstop)
        (n + 1) (Nat.lt_succ_self n)
    · rw [outputCycle_iterate_writes]
      simp [outputStart]

/-- C7 at a concrete input: the flag is seen true twice, then false. -/
theorem outputThread_stops_with_lines_low_witness :
    ∃ st', outputThread (fun k => decide (k < 2)) 3 0 (outputStart 5 5) = some st' ∧
      st'.writes ≠ [] ∧
      st'.writes.getLast? = some { tube := some 15, reset := 0, clock := 0 } :=
  ⟨outputCycle (outputCycle (outputStart 5 5)), by rfl, by decide,
    (outputThread_stops_with_lines_low (fun k => decide (k < 2)) 5 5).1 3
      (outputCycle (outputCycle (outputStart 5 5))) (by rfl) (by decide)⟩

/-! ## The claim on the two threads -/

/-- C5, the code under the schedule `overtakingSchedule`: `inputThread` has seen
clock high for tube 0 and left its wait, but its read of tube 0 comes after
`outputThread` has published clock low for tube 0, so the ordering property
fails on the log; under `promptSchedule` the same steps in another order give a
log on which it holds. -/
theorem read_can_follow_clock_low (input : Nat → Sample) :
    (runSchedule input overtakingSchedule sysStart).log =
        [Obs.pubReset, Obs.portWrite 1 0, Obs.portWrite 0 0, Obs.pubHigh 0, Obs.portWrite 0 1,
          Obs.pubLow 0, Obs.read 0] ∧
      readsInsideWindow none (runSchedule input overtakingSchedule sysStart).log = false ∧
      (runSchedule input promptSchedule sysStart).log =
        [Obs.pubReset, Obs.portWrite 1 0, Obs.portWrite 0 0, Obs.pubHigh 0, Obs.read 0,
          Obs.portWrite 0 1, Obs.pubLow 0] ∧
      readsInsideWindow none (runSchedule input promptSchedule sysStart).log = true :=
  ⟨rfl, rfl, rfl, rfl⟩

end MAD
